import Mathlib

/-!
# Endpoint responder console command definitions — verification

Shallow embedding of
`x-pack/plugins/security_solution/public/management/components/endpoint_responder/lib/console_commands_definition.ts`
and proofs about its authorization, validation and registry-building logic.

Conventions of the embedding:
* TypeScript `true | string` validator results become `ValidatorResult`.
* `ParsedArgData` (an array of argument values) becomes `List String`.
* JavaScript string coercion of an array (`String(argData)`) is the
  comma-join of its elements; `Number(...)` is modelled by `jsNumber`
  restricted to optionally signed decimal integer numerals, the only
  numeric forms the validators are exercised with.
* i18n-translated messages are embedded as their `defaultMessage` text.
-/

/-- Result of a console validator: TypeScript `true | string`
(`.ok` for `true`, `.err message` for the error string). -/
inductive ValidatorResult where
  | ok : ValidatorResult
  | err (message : String) : ValidatorResult
deriving DecidableEq, Repr

/-- `defaultMessage` of `emptyArgumentMessage` in the source. -/
def emptyArgumentMessage : String := "Argument cannot be empty"

/-- `defaultMessage` of `invalidPidMessage` in the source. -/
def invalidPidMessage : String :=
  "Argument must be a positive number representing the PID of a process"

/-- `defaultMessage` of `invalidExecuteTimeout` in the source. -/
def invalidExecuteTimeoutMessage : String :=
  "Argument must be a string with a positive integer value followed by a unit of time (h for hours, m for minutes, s for seconds). Example: 37m."

/-- Modelled from the spec: the user-facing upgrade-required reason
(`UPGRADE_ENDPOINT_FOR_RESPONDER`, imported from the translations module,
which is not part of the supplied sources; the spec calls it the
missing-capability reason, "upgrade endpoint"). -/
def UPGRADE_ENDPOINT_FOR_RESPONDER : String :=
  "Upgrade endpoint to use responder"

/-- Modelled from the spec: the user-facing insufficient-privileges reason
(`INSUFFICIENT_PRIVILEGES_FOR_COMMAND`, imported from the translations
module, which is not part of the supplied sources; the spec calls it the
missing-permission reason, "insufficient privileges"). -/
def INSUFFICIENT_PRIVILEGES_FOR_COMMAND : String :=
  "Insufficient privileges to use this command"

/-- JavaScript array-to-string coercion: `String(argData)` joins the
elements with commas (a one-element array coerces to its sole element). -/
def parsedArgDataToString (argData : List String) : String :=
  String.intercalate "," argData

/-- Model of JavaScript `String.prototype.trim`: drop whitespace from both
ends of the string. -/
def jsTrim (s : String) : String :=
  ⟨((s.data.dropWhile Char.isWhitespace).reverse.dropWhile Char.isWhitespace).reverse⟩

/-- Numeric value of a list of decimal digit characters. -/
def decDigitsToNat (l : List Char) : Nat :=
  l.foldl (fun acc c => acc * 10 + (c.toNat - '0'.toNat)) 0

/-- Model of JavaScript `Number(s)` for a string `s`, restricted to the
forms the validators exercise: the string is trimmed; an empty result is
`0`; an optionally signed nonempty run of decimal digits is that integer;
anything else is NaN (`none`).  Fractional, exponential, hexadecimal and
`Infinity` forms are outside this model (they never satisfy the
`Number.isSafeInteger` guard with a plain digit string anyway). -/
def jsNumber (s : String) : Option Int :=
  let t := jsTrim s
  match t.data with
  | [] => some 0
  | '-' :: rest =>
    if !rest.isEmpty && rest.all Char.isDigit then
      some (-(decDigitsToNat rest : Int))
    else none
  | '+' :: rest =>
    if !rest.isEmpty && rest.all Char.isDigit then
      some ((decDigitsToNat rest : Int))
    else none
  | l =>
    if l.all Char.isDigit then some ((decDigitsToNat l : Int)) else none

/-- JavaScript `Number.isSafeInteger` on an integer value. -/
def isSafeInteger (n : Int) : Bool :=
  n.natAbs ≤ 9007199254740991

/-- `emptyArgumentValidator`: accepts when the first supplied value exists
and is nonempty after trimming. -/
def emptyArgumentValidator (argData : List String) : ValidatorResult :=
  match argData with
  | a :: _ =>
    if (jsTrim a).length > 0 then ValidatorResult.ok
    else ValidatorResult.err emptyArgumentMessage
  | [] => ValidatorResult.err emptyArgumentMessage

/-- `pidValidator`: first applies `emptyArgumentValidator`; then accepts
when `Number(argData)` is a safe integer strictly greater than zero. -/
def pidValidator (argData : List String) : ValidatorResult :=
  match emptyArgumentValidator argData with
  | ValidatorResult.err m => ValidatorResult.err m
  | ValidatorResult.ok =>
    match jsNumber (parsedArgDataToString argData) with
    | some n =>
      if isSafeInteger n && decide (0 < n) then ValidatorResult.ok
      else ValidatorResult.err invalidPidMessage
    | none => ValidatorResult.err invalidPidMessage

/-- Modelled from the spec: `validateUnitOfTime` (imported from `./utils`,
which is not part of the supplied sources).  The spec describes it as
matching a duration string of the form positive integer followed by a
unit, where the unit is h, m or s. -/
def validateUnitOfTime (value : String) : Bool :=
  let digits := value.data.dropLast
  (value.data.getLast? = some 'h' || value.data.getLast? = some 'm' ||
      value.data.getLast? = some 's') &&
    !digits.isEmpty && digits.all Char.isDigit && decide (0 < decDigitsToNat digits)

/-- `executeTimeoutValidator`: accepts when the trimmed string form of the
argument is nonempty and `validateUnitOfTime` accepts it. -/
def executeTimeoutValidator (argData : List String) : ValidatorResult :=
  if (jsTrim (parsedArgDataToString argData)).length > 0 &&
      validateUnitOfTime (jsTrim (parsedArgDataToString argData)) then
    ValidatorResult.ok
  else ValidatorResult.err invalidExecuteTimeoutMessage

/-- The `EndpointPrivileges` fields consulted by the command definitions
(the source object carries further flags; only these seven are read by
`commandToCapabilitiesPrivilegesMap`). -/
structure EndpointPrivileges where
  canIsolateHost : Bool
  canUnIsolateHost : Bool
  canKillProcess : Bool
  canSuspendProcess : Bool
  canGetRunningProcesses : Bool
  canWriteFileOperations : Bool
  canWriteExecuteOperations : Bool
deriving DecidableEq, Repr

/-- One entry of `commandToCapabilitiesPrivilegesMap`: the endpoint
capability required by a command and the privilege predicate gating it. -/
structure CapabilityPrivilege where
  capability : String
  privilege : EndpointPrivileges → Bool

/-- `commandToCapabilitiesPrivilegesMap`, embedded as the lookup function
`Map.get` induces: the seven response-action commands map to their
required capability and privilege; any other name is absent (`none`). -/
def commandToCapabilitiesPrivilegesMap (commandName : String) :
    Option CapabilityPrivilege :=
  if commandName = "isolate" then some ⟨"isolation", fun p => p.canIsolateHost⟩
  else if commandName = "release" then some ⟨"isolation", fun p => p.canUnIsolateHost⟩
  else if commandName = "kill-process" then
    some ⟨"kill_process", fun p => p.canKillProcess⟩
  else if commandName = "suspend-process" then
    some ⟨"suspend_process", fun p => p.canSuspendProcess⟩
  else if commandName = "processes" then
    some ⟨"running_processes", fun p => p.canGetRunningProcesses⟩
  else if commandName = "get-file" then
    some ⟨"get_file", fun p => p.canWriteFileOperations⟩
  else if commandName = "execute" then
    some ⟨"execute", fun p => p.canWriteExecuteOperations⟩
  else none

/-- `getRbacControl`: `Boolean(map.get(commandName)?.privilege(privileges))`
— `false` when the command is not in the map. -/
def getRbacControl (commandName : String) (privileges : EndpointPrivileges) : Bool :=
  match commandToCapabilitiesPrivilegesMap commandName with
  | some entry => entry.privilege privileges
  | none => false

/-- `capabilitiesAndPrivilegesValidator`, with the command's name, its
`meta.capabilities` and its `meta.privileges` taken as arguments (the
source reads them off the `Command` object): builds `errorMessage` by
concatenating the upgrade-required reason (command unknown to the map, or
required capability not reported by the endpoint) and the
insufficient-privileges reason (RBAC check not `true`), returning the
message when nonempty and `true` otherwise. -/
def capabilitiesAndPrivilegesValidator (commandName : String)
    (endpointCapabilities : List String)
    (privileges : EndpointPrivileges) : ValidatorResult :=
  let responderCapability :=
    (commandToCapabilitiesPrivilegesMap commandName).map (fun e => e.capability)
  let errorMessage := ""
  let errorMessage :=
    match responderCapability with
    | none => errorMessage ++ UPGRADE_ENDPOINT_FOR_RESPONDER
    | some cap =>
      if cap ∈ endpointCapabilities then errorMessage
      else errorMessage ++ UPGRADE_ENDPOINT_FOR_RESPONDER
  let errorMessage :=
    if getRbacControl commandName privileges ≠ true then
      errorMessage ++ INSUFFICIENT_PRIVILEGES_FOR_COMMAND
    else errorMessage
  if errorMessage.length > 0 then ValidatorResult.err errorMessage
  else ValidatorResult.ok

/-- `needle` starts the character list `hay`. -/
def startsWithChars : List Char → List Char → Bool
  | [], _ => true
  | _ :: _, [] => false
  | a :: as, b :: bs => a == b && startsWithChars as bs

/-- `needle` occurs as a contiguous run inside `hay`. -/
def containsChars (needle : List Char) : List Char → Bool
  | [] => startsWithChars needle []
  | b :: bs => startsWithChars needle (b :: bs) || containsChars needle bs

/-- The string `needle` occurs as a substring of `haystack`. -/
def stringContains (needle haystack : String) : Bool :=
  containsChars needle.data haystack.data

/-- A command's `about` field: either a plain string (the `status`
command) or the value of `getCommandAboutInfo`. -/
inductive CommandAbout where
  | plain (text : String) : CommandAbout
  | withSupport (aboutInfo : String) (isSupported : Bool) : CommandAbout
deriving DecidableEq, Repr

/-- Modelled from the spec and call sites: `getCommandAboutInfo` (from
`./get_command_about_info`, not part of the supplied sources) packages the
about text together with the `isSupported` flag that drives the rendered
upgrade notice; embedded as a record of its two inputs. -/
def getCommandAboutInfo (aboutInfo : String) (isSupported : Bool) : CommandAbout :=
  CommandAbout.withSupport aboutInfo isSupported

/-- The `isSupported` flag carried by a command's about info, when any. -/
def CommandAbout.isSupportedFlag : CommandAbout → Option Bool
  | CommandAbout.plain _ => none
  | CommandAbout.withSupport _ b => some b

/-- Tags naming the React render components referenced by the command
definitions (the components themselves are rendering-layer code,
out of scope). -/
inductive RenderComponentRef where
  | isolateActionResult
  | releaseActionResult
  | killProcessActionResult
  | suspendProcessActionResult
  | endpointStatusActionResult
  | getProcessesActionResult
  | getFileActionResult
  | executeActionResult
deriving DecidableEq, Repr

/-- A command's `meta` object; `status` omits the capability and privilege
entries, hence the `Option`s. -/
structure CommandMeta where
  endpointId : String
  capabilities : Option (List String)
  privileges : Option EndpointPrivileges
deriving DecidableEq, Repr

/-- Tags naming the per-argument validator functions attached to argument
definitions (`getFilePath` is the source's inline lambda that forwards to
`emptyArgumentValidator`). -/
inductive ArgValidatorRef where
  | emptyArgument
  | pid
  | executeTimeout
  | getFilePath
deriving DecidableEq, Repr

/-- Run the validator a tag refers to. -/
def runArgValidator : ArgValidatorRef → List String → ValidatorResult
  | ArgValidatorRef.emptyArgument, d => emptyArgumentValidator d
  | ArgValidatorRef.pid, d => pidValidator d
  | ArgValidatorRef.executeTimeout, d => executeTimeoutValidator d
  | ArgValidatorRef.getFilePath, d => emptyArgumentValidator d

/-- One argument definition of a command. -/
structure ArgSpec where
  required : Bool
  allowMultiples : Bool
  about : String
  exclusiveOr : Bool := false
  mustHaveValue : Option String := none
  validate : Option ArgValidatorRef := none
deriving DecidableEq, Repr

/-- Tags naming the command-level `validate` function attached to a
command definition. -/
inductive ConsoleValidatorRef where
  | capabilitiesAndPrivileges
deriving DecidableEq, Repr

/-- A `CommandDefinition` with the fields the source populates; optional
fields the `status` command omits are `Option`s, and `args` keeps the
source's textual order as an association list. -/
structure CommandDefinition where
  name : String
  about : CommandAbout
  renderComponent : RenderComponentRef
  meta : CommandMeta
  exampleUsage : Option String := none
  exampleInstruction : Option String := none
  validate : Option ConsoleValidatorRef := none
  mustHaveArgs : Bool := false
  args : List (String × ArgSpec) := []
  helpGroupLabel : String
  helpGroupPosition : Nat
  helpCommandPosition : Nat
  helpDisabled : Option Bool := none
  helpHidden : Option Bool := none
deriving DecidableEq, Repr

/-- `defaultMessage` of `HELP_GROUPS.responseActions.label`. -/
def responseActionsGroupLabel : String := "Response actions"

/-- `ENTER_PID_OR_ENTITY_ID_INSTRUCTION`. -/
def ENTER_PID_OR_ENTITY_ID_INSTRUCTION : String :=
  "Enter a pid or an entity id to execute"

/-- `ENTER_OR_ADD_COMMENT_ARG_INSTRUCTION`. -/
def ENTER_OR_ADD_COMMENT_ARG_INSTRUCTION : String :=
  "Hit enter to execute or add an optional comment"

/-- `COMMENT_ARG_ABOUT`. -/
def COMMENT_ARG_ABOUT : String := "A comment to go along with the action"

/-- The optional `comment` argument shared by the commands. -/
def commentArg : ArgSpec :=
  { required := false, allowMultiples := false, about := COMMENT_ARG_ABOUT }

/-- `doesEndpointSupportCommand` (the closure inside
`getEndpointConsoleCommands`): the command's required capability, when the
map knows one, must be included in the endpoint's reported capabilities;
commands without a map entry are unsupported. -/
def doesEndpointSupportCommand (endpointCapabilities : List String)
    (commandName : String) : Bool :=
  match commandToCapabilitiesPrivilegesMap commandName with
  | some entry => decide (entry.capability ∈ endpointCapabilities)
  | none => false

/-- The `isolate` entry of `getEndpointConsoleCommands`. -/
def isolateCommand (endpointAgentId : String) (endpointCapabilities : List String)
    (endpointPrivileges : EndpointPrivileges) : CommandDefinition :=
  { name := "isolate"
    about := getCommandAboutInfo "Isolate the host"
      (doesEndpointSupportCommand endpointCapabilities "isolate")
    renderComponent := RenderComponentRef.isolateActionResult
    meta := { endpointId := endpointAgentId
              capabilities := some endpointCapabilities
              privileges := some endpointPrivileges }
    exampleUsage := some "isolate --comment \"isolate this host\""
    exampleInstruction := some ENTER_OR_ADD_COMMENT_ARG_INSTRUCTION
    validate := some ConsoleValidatorRef.capabilitiesAndPrivileges
    args := [("comment", commentArg)]
    helpGroupLabel := responseActionsGroupLabel
    helpGroupPosition := 0
    helpCommandPosition := 0
    helpDisabled :=
      some (decide (doesEndpointSupportCommand endpointCapabilities "isolate" = false))
    helpHidden := some (!(getRbacControl "isolate" endpointPrivileges)) }

/-- The `release` entry of `getEndpointConsoleCommands`. -/
def releaseCommand (endpointAgentId : String) (endpointCapabilities : List String)
    (endpointPrivileges : EndpointPrivileges) : CommandDefinition :=
  { name := "release"
    about := getCommandAboutInfo "Release the host"
      (doesEndpointSupportCommand endpointCapabilities "release")
    renderComponent := RenderComponentRef.releaseActionResult
    meta := { endpointId := endpointAgentId
              capabilities := some endpointCapabilities
              privileges := some endpointPrivileges }
    exampleUsage := some "release --comment \"release this host\""
    exampleInstruction := some ENTER_OR_ADD_COMMENT_ARG_INSTRUCTION
    validate := some ConsoleValidatorRef.capabilitiesAndPrivileges
    args := [("comment", commentArg)]
    helpGroupLabel := responseActionsGroupLabel
    helpGroupPosition := 0
    helpCommandPosition := 1
    helpDisabled :=
      some (decide (doesEndpointSupportCommand endpointCapabilities "release" = false))
    helpHidden := some (!(getRbacControl "release" endpointPrivileges)) }

/-- The `kill-process` entry of `getEndpointConsoleCommands`. -/
def killProcessCommand (endpointAgentId : String) (endpointCapabilities : List String)
    (endpointPrivileges : EndpointPrivileges) : CommandDefinition :=
  { name := "kill-process"
    about := getCommandAboutInfo "Kill/terminate a process"
      (doesEndpointSupportCommand endpointCapabilities "kill-process")
    renderComponent := RenderComponentRef.killProcessActionResult
    meta := { endpointId := endpointAgentId
              capabilities := some endpointCapabilities
              privileges := some endpointPrivileges }
    exampleUsage := some "kill-process --pid 123 --comment \"kill this process\""
    exampleInstruction := some ENTER_PID_OR_ENTITY_ID_INSTRUCTION
    validate := some ConsoleValidatorRef.capabilitiesAndPrivileges
    mustHaveArgs := true
    args :=
      [("comment", commentArg),
       ("pid",
        { required := false, allowMultiples := false, exclusiveOr := true
          about := "A PID representing the process to kill"
          validate := some ArgValidatorRef.pid }),
       ("entityId",
        { required := false, allowMultiples := false, exclusiveOr := true
          about := "An entity id representing the process to kill"
          validate := some ArgValidatorRef.emptyArgument })]
    helpGroupLabel := responseActionsGroupLabel
    helpGroupPosition := 0
    helpCommandPosition := 4
    helpDisabled :=
      some (decide (doesEndpointSupportCommand endpointCapabilities "kill-process" = false))
    helpHidden := some (!(getRbacControl "kill-process" endpointPrivileges)) }

/-- The `suspend-process` entry of `getEndpointConsoleCommands`. -/
def suspendProcessCommand (endpointAgentId : String)
    (endpointCapabilities : List String)
    (endpointPrivileges : EndpointPrivileges) : CommandDefinition :=
  { name := "suspend-process"
    about := getCommandAboutInfo "Temporarily suspend a process"
      (doesEndpointSupportCommand endpointCapabilities "suspend-process")
    renderComponent := RenderComponentRef.suspendProcessActionResult
    meta := { endpointId := endpointAgentId
              capabilities := some endpointCapabilities
              privileges := some endpointPrivileges }
    exampleUsage := some "suspend-process --pid 123 --comment \"suspend this process\""
    exampleInstruction := some ENTER_PID_OR_ENTITY_ID_INSTRUCTION
    validate := some ConsoleValidatorRef.capabilitiesAndPrivileges
    mustHaveArgs := true
    args :=
      [("comment", commentArg),
       ("pid",
        { required := false, allowMultiples := false, exclusiveOr := true
          about := "A PID representing the process to suspend"
          validate := some ArgValidatorRef.pid }),
       ("entityId",
        { required := false, allowMultiples := false, exclusiveOr := true
          about := "An entity id representing the process to suspend"
          validate := some ArgValidatorRef.emptyArgument })]
    helpGroupLabel := responseActionsGroupLabel
    helpGroupPosition := 0
    helpCommandPosition := 5
    helpDisabled :=
      some (decide (doesEndpointSupportCommand endpointCapabilities "suspend-process" = false))
    helpHidden := some (!(getRbacControl "suspend-process" endpointPrivileges)) }

/-- The `status` entry of `getEndpointConsoleCommands`: a plain about
string, a `meta` holding only the endpoint id, and no `validate`,
`helpDisabled` or `helpHidden` fields. -/
def statusCommand (endpointAgentId : String) : CommandDefinition :=
  { name := "status"
    about := CommandAbout.plain "Show host status information"
    renderComponent := RenderComponentRef.endpointStatusActionResult
    meta := { endpointId := endpointAgentId
              capabilities := none
              privileges := none }
    helpGroupLabel := responseActionsGroupLabel
    helpGroupPosition := 0
    helpCommandPosition := 2 }

/-- The `processes` entry of `getEndpointConsoleCommands`. -/
def processesCommand (endpointAgentId : String) (endpointCapabilities : List String)
    (endpointPrivileges : EndpointPrivileges) : CommandDefinition :=
  { name := "processes"
    about := getCommandAboutInfo "Show all running processes"
      (doesEndpointSupportCommand endpointCapabilities "processes")
    renderComponent := RenderComponentRef.getProcessesActionResult
    meta := { endpointId := endpointAgentId
              capabilities := some endpointCapabilities
              privileges := some endpointPrivileges }
    exampleUsage := some "processes --comment \"get the processes\""
    exampleInstruction := some ENTER_OR_ADD_COMMENT_ARG_INSTRUCTION
    validate := some ConsoleValidatorRef.capabilitiesAndPrivileges
    args := [("comment", commentArg)]
    helpGroupLabel := responseActionsGroupLabel
    helpGroupPosition := 0
    helpCommandPosition := 3
    helpDisabled :=
      some (decide (doesEndpointSupportCommand endpointCapabilities "processes" = false))
    helpHidden := some (!(getRbacControl "processes" endpointPrivileges)) }

/-- The `get-file` entry of `getEndpointConsoleCommands` (pushed only when
the `responseActionGetFileEnabled` feature flag is on).  Note the source
computes the about info's `isSupported` from
`doesEndpointSupportCommand('processes')` while `helpDisabled` consults
`doesEndpointSupportCommand('get-file')`. -/
def getFileCommand (endpointAgentId : String) (endpointCapabilities : List String)
    (endpointPrivileges : EndpointPrivileges) : CommandDefinition :=
  { name := "get-file"
    about := getCommandAboutInfo "Retrieve a file from the host"
      (doesEndpointSupportCommand endpointCapabilities "processes")
    renderComponent := RenderComponentRef.getFileActionResult
    meta := { endpointId := endpointAgentId
              capabilities := some endpointCapabilities
              privileges := some endpointPrivileges }
    exampleUsage :=
      some "get-file --path \"/full/path/to/file.txt\" --comment \"Possible malware\""
    exampleInstruction := some ENTER_OR_ADD_COMMENT_ARG_INSTRUCTION
    validate := some ConsoleValidatorRef.capabilitiesAndPrivileges
    mustHaveArgs := true
    args :=
      [("path",
        { required := true, allowMultiples := false
          about := "The full file path to be retrieved"
          validate := some ArgValidatorRef.getFilePath }),
       ("comment", commentArg)]
    helpGroupLabel := responseActionsGroupLabel
    helpGroupPosition := 0
    helpCommandPosition := 6
    helpDisabled :=
      some (!(doesEndpointSupportCommand endpointCapabilities "get-file"))
    helpHidden := some (!(getRbacControl "get-file" endpointPrivileges)) }

/-- The `execute` entry of `getEndpointConsoleCommands` (pushed only when
the `responseActionExecuteEnabled` feature flag is on). -/
def executeCommand (endpointAgentId : String) (endpointCapabilities : List String)
    (endpointPrivileges : EndpointPrivileges) : CommandDefinition :=
  { name := "execute"
    about := getCommandAboutInfo "Execute a command on the host"
      (doesEndpointSupportCommand endpointCapabilities "execute")
    renderComponent := RenderComponentRef.executeActionResult
    meta := { endpointId := endpointAgentId
              capabilities := some endpointCapabilities
              privileges := some endpointPrivileges }
    exampleUsage :=
      some "execute --command \"ls -al\" --timeout 2s --comment \"Get list of all files\""
    exampleInstruction := some ENTER_OR_ADD_COMMENT_ARG_INSTRUCTION
    validate := some ConsoleValidatorRef.capabilitiesAndPrivileges
    mustHaveArgs := true
    args :=
      [("command",
        { required := true, allowMultiples := false
          about := "The command to execute"
          mustHaveValue := some "non-empty-string" }),
       ("timeout",
        { required := false, allowMultiples := false
          about := "The timeout in units of time (h for hours, m for minutes, s for seconds) for the endpoint to wait for the script to complete. Example: 37m. If not given, it defaults to 4 hours."
          mustHaveValue := some "non-empty-string"
          validate := some ArgValidatorRef.executeTimeout }),
       ("comment", commentArg)]
    helpGroupLabel := responseActionsGroupLabel
    helpGroupPosition := 0
    helpCommandPosition := 6
    helpDisabled :=
      some (!(doesEndpointSupportCommand endpointCapabilities "execute"))
    helpHidden := some (!(getRbacControl "execute" endpointPrivileges)) }

/-- `getEndpointConsoleCommands`, with the two feature-flag reads from
`ExperimentalFeaturesService.get()` made explicit parameters
(`isGetFileEnabled` for `responseActionGetFileEnabled`, `isExecuteEnabled`
for `responseActionExecuteEnabled`): the fixed six-command list, with
`get-file` and then `execute` pushed at the end when enabled. -/
def getEndpointConsoleCommands (endpointAgentId : String)
    (endpointCapabilities : List String) (endpointPrivileges : EndpointPrivileges)
    (isGetFileEnabled : Bool) (isExecuteEnabled : Bool) : List CommandDefinition :=
  let consoleCommands :=
    [isolateCommand endpointAgentId endpointCapabilities endpointPrivileges,
     releaseCommand endpointAgentId endpointCapabilities endpointPrivileges,
     killProcessCommand endpointAgentId endpointCapabilities endpointPrivileges,
     suspendProcessCommand endpointAgentId endpointCapabilities endpointPrivileges,
     statusCommand endpointAgentId,
     processesCommand endpointAgentId endpointCapabilities endpointPrivileges]
  let consoleCommands :=
    if isGetFileEnabled then
      consoleCommands ++
        [getFileCommand endpointAgentId endpointCapabilities endpointPrivileges]
    else consoleCommands
  let consoleCommands :=
    if isExecuteEnabled then
      consoleCommands ++
        [executeCommand endpointAgentId endpointCapabilities endpointPrivileges]
    else consoleCommands
  consoleCommands

/-- Modelled from the spec: message for a violated exclusive-or group. -/
def exclusiveOrGroupMessage : String :=
  "Exactly one of the mutually exclusive arguments must be supplied"

/-- Modelled from the spec: message for a missing required argument. -/
def missingRequiredArgMessage : String := "Missing required argument"

/-- Modelled from the spec: run the per-argument validators over the
argument definitions in order; the first failing validator wins (no
aggregation across arguments); arguments that were not supplied, or carry
no validator, are skipped. -/
def firstFailingValidator :
    List (String × ArgSpec) → List (String × List String) → ValidatorResult
  | [], _ => ValidatorResult.ok
  | (argName, spec) :: rest, supplied =>
    match supplied.lookup argName, spec.validate with
    | some vals, some v =>
      match runArgValidator v vals with
      | ValidatorResult.err m => ValidatorResult.err m
      | ValidatorResult.ok => firstFailingValidator rest supplied
    | _, _ => firstFailingValidator rest supplied

/-- Modelled from the spec: `validateArguments(command, suppliedArgs)` of
the console service (the service itself is not part of the supplied
sources).  Per the spec it enforces the exclusive-or groups (exactly one
of the arguments declared `exclusiveOr` may be supplied), required
arguments, and then applies the per-argument validators, first failure
winning. -/
def validateArguments (specArgs : List (String × ArgSpec))
    (supplied : List (String × List String)) : ValidatorResult :=
  let exclusiveArgs := specArgs.filter (fun p => p.2.exclusiveOr)
  let suppliedExclusive :=
    exclusiveArgs.filter (fun p => (supplied.lookup p.1).isSome)
  if !exclusiveArgs.isEmpty && suppliedExclusive.length ≠ 1 then
    ValidatorResult.err exclusiveOrGroupMessage
  else if !(specArgs.filter
      (fun p => p.2.required && (supplied.lookup p.1).isNone)).isEmpty then
    ValidatorResult.err missingRequiredArgMessage
  else firstFailingValidator specArgs supplied

/-- A privilege set with every flag denied. -/
def noPrivileges : EndpointPrivileges :=
  ⟨false, false, false, false, false, false, false⟩

/-- A privilege set with every flag granted. -/
def allPrivileges : EndpointPrivileges :=
  ⟨true, true, true, true, true, true, true⟩

/-- `String(argData)` of a one-element array is its sole element. -/
lemma parsedArgDataToString_singleton (s : String) :
    parsedArgDataToString [s] = s := rfl

/-- A string accepted by the duration shape check is nonempty. -/
lemma validateUnitOfTime_ne_nil {v : String} (h : validateUnitOfTime v = true) :
    v.data ≠ [] := by
  intro hnil
  unfold validateUnitOfTime at h
  rw [hnil] at h
  simp at h

/-- The names of the commands built by `getEndpointConsoleCommands`, in
order, as a function of the two feature flags only. -/
lemma consoleCommands_names_eq (a : String) (caps : List String)
    (privs : EndpointPrivileges) (g e : Bool) :
    (getEndpointConsoleCommands a caps privs g e).map CommandDefinition.name =
      ["isolate", "release", "kill-process", "suspend-process", "status",
        "processes"] ++
        (if g then ["get-file"] else []) ++ (if e then ["execute"] else []) := by
  cases g <;> cases e <;>
    simp [getEndpointConsoleCommands, isolateCommand, releaseCommand,
      killProcessCommand, suspendProcessCommand, statusCommand,
      processesCommand, getFileCommand, executeCommand]

/-- Membership in the built command list, unfolded to the eight possible
descriptors. -/
lemma mem_getEndpointConsoleCommands {a : String} {caps : List String}
    {privs : EndpointPrivileges} {g e : Bool} {cmd : CommandDefinition} :
    cmd ∈ getEndpointConsoleCommands a caps privs g e ↔
      cmd = isolateCommand a caps privs ∨ cmd = releaseCommand a caps privs ∨
      cmd = killProcessCommand a caps privs ∨
      cmd = suspendProcessCommand a caps privs ∨
      cmd = statusCommand a ∨ cmd = processesCommand a caps privs ∨
      (g = true ∧ cmd = getFileCommand a caps privs) ∨
      (e = true ∧ cmd = executeCommand a caps privs) := by
  cases g <;> cases e <;> simp [getEndpointConsoleCommands]

/-- C5: the PID validator returns `true` on `"123"` and an error message
on each of `"0"`, `"-5"`, `""` and `"abc"`. -/
theorem pidValidator_spec_vectors :
    pidValidator ["123"] = ValidatorResult.ok ∧
    pidValidator ["0"] = ValidatorResult.err invalidPidMessage ∧
    pidValidator ["-5"] = ValidatorResult.err invalidPidMessage ∧
    pidValidator [""] = ValidatorResult.err emptyArgumentMessage ∧
    pidValidator ["abc"] = ValidatorResult.err invalidPidMessage := by
  decide

/-- C6 counterexample: the duration validator accepts the input `" 37m"`,
which is not a string of a positive integer followed by a unit (it starts
with a space), because the validator trims its input before matching; so
the validator does not accept exactly the strings of that shape. -/
theorem executeTimeoutValidator_accepts_untrimmed :
    executeTimeoutValidator [" 37m"] = ValidatorResult.ok ∧
    validateUnitOfTime " 37m" = false := by
  decide

/-- C6 (amended): the duration validator returns `true` on `"37m"`,
`"2s"` and `"4h"` and an error message on `"37"`, `"m37"` and `""`; in
general it accepts exactly the inputs whose string form, after trimming,
is a positive integer followed by one of the units h, m, s. -/
theorem executeTimeoutValidator_characterization :
    (executeTimeoutValidator ["37m"] = ValidatorResult.ok ∧
     executeTimeoutValidator ["2s"] = ValidatorResult.ok ∧
     executeTimeoutValidator ["4h"] = ValidatorResult.ok ∧
     executeTimeoutValidator ["37"] = ValidatorResult.err invalidExecuteTimeoutMessage ∧
     executeTimeoutValidator ["m37"] = ValidatorResult.err invalidExecuteTimeoutMessage ∧
     executeTimeoutValidator [""] = ValidatorResult.err invalidExecuteTimeoutMessage) ∧
    ∀ s : String, executeTimeoutValidator [s] = ValidatorResult.ok ↔
      validateUnitOfTime (jsTrim s) = true := by
  refine ⟨by decide, fun s => ?_⟩
  unfold executeTimeoutValidator
  rw [parsedArgDataToString_singleton]
  constructor
  · intro h
    split at h
    · next hcond =>
      exact (Bool.and_eq_true _ _).mp hcond |>.2
    · exact absurd h (by simp)
  · intro h
    have hne : (jsTrim s).data ≠ [] := validateUnitOfTime_ne_nil h
    have hlen : (jsTrim s).length > 0 :=
      show 0 < (jsTrim s).data.length from List.length_pos.mpr hne
    simp [h, hlen]

/-- C7: for every input, the built list carries the six fixed commands
isolate, release, kill-process, suspend-process, status and processes in
that order, then `get-file` exactly when `responseActionGetFileEnabled`
is on, then `execute` exactly when `responseActionExecuteEnabled` is on. -/
theorem consoleCommands_ordered_names (a : String) (caps : List String)
    (privs : EndpointPrivileges) (g e : Bool) :
    (getEndpointConsoleCommands a caps privs g e).map CommandDefinition.name =
      ["isolate", "release", "kill-process", "suspend-process", "status",
        "processes"] ++
        (if g then ["get-file"] else []) ++ (if e then ["execute"] else []) :=
  consoleCommands_names_eq a caps privs g e

/-- C8: building the registry is deterministic — two calls of
`getEndpointConsoleCommands` on the same agent id, capability set,
privilege set and feature-flag values give equal descriptor lists (the
embedding is a pure function, mirroring the source, which only reads its
inputs and fills a fresh array) — and the built descriptors embed the
inputs unchanged: every descriptor's `meta` holds exactly the input agent
id and, where present at all, exactly the input capability and privilege
sets. -/
theorem consoleCommands_deterministic (a : String) (caps : List String)
    (privs : EndpointPrivileges) (g e : Bool) :
    getEndpointConsoleCommands a caps privs g e =
      getEndpointConsoleCommands a caps privs g e ∧
    ∀ cmd ∈ getEndpointConsoleCommands a caps privs g e,
      cmd.meta.endpointId = a ∧
      (cmd.meta.capabilities = none ∨ cmd.meta.capabilities = some caps) ∧
      (cmd.meta.privileges = none ∨ cmd.meta.privileges = some privs) := by
  refine ⟨rfl, fun cmd hmem => ?_⟩
  rcases mem_getEndpointConsoleCommands.mp hmem with
    rfl | rfl | rfl | rfl | rfl | rfl | ⟨hg, rfl⟩ | ⟨he, rfl⟩ <;>
    simp [isolateCommand, releaseCommand, killProcessCommand,
      suspendProcessCommand, statusCommand, processesCommand, getFileCommand,
      executeCommand]

/-- C1: for a command the capability map knows, when its required
capability is reported by the endpoint but its privilege predicate is
false, the authorization validator returns exactly the
insufficient-privileges reason, which does not contain the
upgrade-required reason. -/
theorem authorize_denied_privilege_only (commandName : String)
    (entry : CapabilityPrivilege) (endpointCapabilities : List String)
    (privileges : EndpointPrivileges)
    (hmap : commandToCapabilitiesPrivilegesMap commandName = some entry)
    (hcap : entry.capability ∈ endpointCapabilities)
    (hpriv : entry.privilege privileges = false) :
    capabilitiesAndPrivilegesValidator commandName endpointCapabilities privileges =
      ValidatorResult.err INSUFFICIENT_PRIVILEGES_FOR_COMMAND ∧
    stringContains UPGRADE_ENDPOINT_FOR_RESPONDER
      INSUFFICIENT_PRIVILEGES_FOR_COMMAND = false := by
  refine ⟨?_, by decide⟩
  have hrbac : getRbacControl commandName privileges = false := by
    simp [getRbacControl, hmap, hpriv]
  have hne : getRbacControl commandName privileges ≠ true := by simp [hrbac]
  unfold capabilitiesAndPrivilegesValidator
  rw [hmap]
  simp only [Option.map_some']
  rw [if_pos hcap, if_pos hne]
  decide

/-- C1 witness: `isolate` with the `isolation` capability reported and
`canIsolateHost` denied. -/
theorem authorize_denied_privilege_only_witness :
    capabilitiesAndPrivilegesValidator "isolate" ["isolation"] noPrivileges =
      ValidatorResult.err INSUFFICIENT_PRIVILEGES_FOR_COMMAND ∧
    stringContains UPGRADE_ENDPOINT_FOR_RESPONDER
      INSUFFICIENT_PRIVILEGES_FOR_COMMAND = false :=
  authorize_denied_privilege_only "isolate"
    ⟨"isolation", fun p => p.canIsolateHost⟩ ["isolation"] noPrivileges
    rfl (by decide) rfl

/-- C2: for a command the capability map knows, when its required
capability is not reported by the endpoint, the authorization validator
returns an error containing the upgrade-required reason whatever the
privilege value; and when the privilege predicate is also false, the
error is exactly the upgrade-required reason followed by the
insufficient-privileges reason. -/
theorem authorize_missing_capability_includes_upgrade (commandName : String)
    (entry : CapabilityPrivilege) (endpointCapabilities : List String)
    (privileges : EndpointPrivileges)
    (hmap : commandToCapabilitiesPrivilegesMap commandName = some entry)
    (hcap : entry.capability ∉ endpointCapabilities) :
    (∃ msg, capabilitiesAndPrivilegesValidator commandName endpointCapabilities
        privileges = ValidatorResult.err msg ∧
      stringContains UPGRADE_ENDPOINT_FOR_RESPONDER msg = true) ∧
    (entry.privilege privileges = false →
      capabilitiesAndPrivilegesValidator commandName endpointCapabilities
          privileges =
        ValidatorResult.err
          (UPGRADE_ENDPOINT_FOR_RESPONDER ++ INSUFFICIENT_PRIVILEGES_FOR_COMMAND)) := by
  have hrbac : getRbacControl commandName privileges = entry.privilege privileges := by
    simp [getRbacControl, hmap]
  constructor
  · cases hp : entry.privilege privileges with
    | true =>
      refine ⟨UPGRADE_ENDPOINT_FOR_RESPONDER, ?_, by decide⟩
      have hne : ¬(getRbacControl commandName privileges ≠ true) := by
        simp [hrbac, hp]
      unfold capabilitiesAndPrivilegesValidator
      rw [hmap]
      simp only [Option.map_some']
      rw [if_neg hcap, if_neg hne]
      decide
    | false =>
      refine ⟨UPGRADE_ENDPOINT_FOR_RESPONDER ++ INSUFFICIENT_PRIVILEGES_FOR_COMMAND,
        ?_, by decide⟩
      have hne : getRbacControl commandName privileges ≠ true := by
        simp [hrbac, hp]
      unfold capabilitiesAndPrivilegesValidator
      rw [hmap]
      simp only [Option.map_some']
      rw [if_neg hcap, if_pos hne]
      decide
  · intro hp
    have hne : getRbacControl commandName privileges ≠ true := by
      simp [hrbac, hp]
    unfold capabilitiesAndPrivilegesValidator
    rw [hmap]
    simp only [Option.map_some']
    rw [if_neg hcap, if_pos hne]
    decide

/-- C2 witness: `isolate` against an endpoint reporting no capabilities,
with `canIsolateHost` denied. -/
theorem authorize_missing_capability_includes_upgrade_witness :
    (∃ msg, capabilitiesAndPrivilegesValidator "isolate" [] noPrivileges =
        ValidatorResult.err msg ∧
      stringContains UPGRADE_ENDPOINT_FOR_RESPONDER msg = true) ∧
    (noPrivileges.canIsolateHost = false →
      capabilitiesAndPrivilegesValidator "isolate" [] noPrivileges =
        ValidatorResult.err
          (UPGRADE_ENDPOINT_FOR_RESPONDER ++ INSUFFICIENT_PRIVILEGES_FOR_COMMAND)) :=
  authorize_missing_capability_includes_upgrade "isolate"
    ⟨"isolation", fun p => p.canIsolateHost⟩ [] noPrivileges
    rfl (by decide)

/-- C3: a built command that has a required capability
(`commandToCapabilitiesPrivilegesMap` knows its name) which the endpoint
does not support is marked `helpDisabled` yet stays in the list (the name
list does not depend on capabilities or privileges); it is visible
(`helpHidden = false`) when its privilege is granted and hidden
(`helpHidden = true`) when the privilege is also denied. -/
theorem unsupported_capability_disabled_not_removed (a : String)
    (caps : List String) (privs : EndpointPrivileges) (g e : Bool)
    (caps2 : List String) (privs2 : EndpointPrivileges)
    (cmd : CommandDefinition)
    (hmem : cmd ∈ getEndpointConsoleCommands a caps privs g e)
    (hmapped : (commandToCapabilitiesPrivilegesMap cmd.name).isSome = true)
    (hunsup : doesEndpointSupportCommand caps cmd.name = false) :
    cmd.helpDisabled = some true ∧
    (getRbacControl cmd.name privs = true → cmd.helpHidden = some false) ∧
    (getRbacControl cmd.name privs = false → cmd.helpHidden = some true) ∧
    (getEndpointConsoleCommands a caps privs g e).map CommandDefinition.name =
      (getEndpointConsoleCommands a caps2 privs2 g e).map CommandDefinition.name := by
  have hnames := (consoleCommands_names_eq a caps privs g e).trans
    (consoleCommands_names_eq a caps2 privs2 g e).symm
  rcases mem_getEndpointConsoleCommands.mp hmem with
    rfl | rfl | rfl | rfl | rfl | rfl | ⟨hg, rfl⟩ | ⟨he, rfl⟩ <;>
    refine ⟨?_, fun h => ?_, fun h => ?_, hnames⟩ <;>
    simp_all [isolateCommand, releaseCommand, killProcessCommand,
      suspendProcessCommand, statusCommand, processesCommand, getFileCommand,
      executeCommand, commandToCapabilitiesPrivilegesMap]

/-- C3 witness: `isolate` on an endpoint reporting no capabilities, with
all privileges denied, for two different capability/privilege snapshots. -/
theorem unsupported_capability_disabled_not_removed_witness :
    (isolateCommand "agent-1" [] noPrivileges).helpDisabled = some true ∧
    (getRbacControl (isolateCommand "agent-1" [] noPrivileges).name noPrivileges =
        true →
      (isolateCommand "agent-1" [] noPrivileges).helpHidden = some false) ∧
    (getRbacControl (isolateCommand "agent-1" [] noPrivileges).name noPrivileges =
        false →
      (isolateCommand "agent-1" [] noPrivileges).helpHidden = some true) ∧
    (getEndpointConsoleCommands "agent-1" [] noPrivileges false false).map
        CommandDefinition.name =
      (getEndpointConsoleCommands "agent-1" ["isolation"] allPrivileges false
          false).map CommandDefinition.name :=
  unsupported_capability_disabled_not_removed "agent-1" [] noPrivileges false false
    ["isolation"] allPrivileges (isolateCommand "agent-1" [] noPrivileges)
    (by simp [getEndpointConsoleCommands]) rfl rfl

/-- C9: the `status` descriptor in the built list carries no `validate`
function, no capability or privilege metadata, and no `helpDisabled` or
`helpHidden` flag, for every capability and privilege input. -/
theorem status_bypasses_capability_gate (a : String) (caps : List String)
    (privs : EndpointPrivileges) (g e : Bool) (cmd : CommandDefinition)
    (hmem : cmd ∈ getEndpointConsoleCommands a caps privs g e)
    (hname : cmd.name = "status") :
    cmd.validate = none ∧ cmd.meta.capabilities = none ∧
    cmd.meta.privileges = none ∧ cmd.helpDisabled = none ∧
    cmd.helpHidden = none := by
  rcases mem_getEndpointConsoleCommands.mp hmem with
    rfl | rfl | rfl | rfl | rfl | rfl | ⟨hg, rfl⟩ | ⟨he, rfl⟩ <;>
    simp_all [isolateCommand, releaseCommand, killProcessCommand,
      suspendProcessCommand, statusCommand, processesCommand, getFileCommand,
      executeCommand]

/-- C9 witness: the `status` descriptor at a concrete input. -/
theorem status_bypasses_capability_gate_witness :
    (statusCommand "agent-1").validate = none ∧
    (statusCommand "agent-1").meta.capabilities = none ∧
    (statusCommand "agent-1").meta.privileges = none ∧
    (statusCommand "agent-1").helpDisabled = none ∧
    (statusCommand "agent-1").helpHidden = none :=
  status_bypasses_capability_gate "agent-1" [] noPrivileges false false
    (statusCommand "agent-1") (by simp [getEndpointConsoleCommands]) rfl

/-- C10: the `isSupported` flag the source embeds in the `get-file`
descriptor's about info is computed from the `processes` lookup, so it
tracks the `running_processes` capability, while the same descriptor's
`helpDisabled` flag tracks the `get_file` capability; on a capability set
holding `get_file` but not `running_processes` the about info claims the
command unsupported although it is not disabled. -/
theorem getFile_isSupported_tracks_processes (a : String) (caps : List String)
    (privs : EndpointPrivileges) (e : Bool) :
    (getFileCommand a caps privs).about.isSupportedFlag =
      some (decide ("running_processes" ∈ caps)) ∧
    (getFileCommand a caps privs).helpDisabled =
      some (!(decide ("get_file" ∈ caps))) ∧
    getFileCommand a caps privs ∈ getEndpointConsoleCommands a caps privs true e ∧
    (getFileCommand a ["get_file"] privs).about.isSupportedFlag = some false ∧
    (getFileCommand a ["get_file"] privs).helpDisabled = some false := by
  refine ⟨?_, ?_, ?_, ?_, ?_⟩
  · simp [getFileCommand, getCommandAboutInfo, CommandAbout.isSupportedFlag,
      doesEndpointSupportCommand, commandToCapabilitiesPrivilegesMap]
  · simp [getFileCommand, doesEndpointSupportCommand,
      commandToCapabilitiesPrivilegesMap]
  · exact mem_getEndpointConsoleCommands.mpr
      (Or.inr (Or.inr (Or.inr (Or.inr (Or.inr (Or.inr (Or.inl ⟨rfl, rfl⟩)))))))
  · simp [getFileCommand, getCommandAboutInfo, CommandAbout.isSupportedFlag,
      doesEndpointSupportCommand, commandToCapabilitiesPrivilegesMap]
  · simp [getFileCommand, doesEndpointSupportCommand,
      commandToCapabilitiesPrivilegesMap]

/-- C4: for the `kill-process` argument definitions, supplying both `pid`
and `entityId` is rejected whatever their values, while supplying exactly
one of them with a valid value is accepted. -/
theorem killProcess_pid_entityId_exclusive (a : String) (caps : List String)
    (privs : EndpointPrivileges) :
    (∀ pidValue entityIdValue : List String, ∃ msg,
      validateArguments (killProcessCommand a caps privs).args
          [("pid", pidValue), ("entityId", entityIdValue)] =
        ValidatorResult.err msg) ∧
    validateArguments (killProcessCommand a caps privs).args
      [("pid", ["123"])] = ValidatorResult.ok ∧
    validateArguments (killProcessCommand a caps privs).args
      [("entityId", ["abc"])] = ValidatorResult.ok := by
  refine ⟨fun v1 v2 => ⟨exclusiveOrGroupMessage, ?_⟩, ?_, ?_⟩
  · simp [killProcessCommand, validateArguments, List.lookup, commentArg]
  · simp only [killProcessCommand]
    decide
  · simp only [killProcessCommand]
    decide
